import Mathlib

/-!
Shallow embedding of the vandmc core pieces that the verified properties
concern: the `Primitive` rectangular-prism detector geometry and its
ray-intersection test (src/source/geometry.cpp), the `RegularPolygon`
initialization (src/source/geometry.cpp), and the `AngularDist` angular
distribution machinery (src/source/vandmc_core.cpp).

Real values (C++ `double`) are idealized as exact rationals `ℚ`.  Where the
C++ can produce IEEE-754 non-finite values (the unguarded division in
`Primitive::PlaneIntersect`, whose near-zero guard is commented out in the
source), a separate IEEE-style extended-value type `ERat` models +inf, -inf
and NaN explicitly.  `std::sin`/`std::cos` are finite-precision
approximations with no exact rational form; the embedding takes them as
explicit function parameters (`sinQ`, `cosQ`).
-/

namespace Vandmc

/-- The global constant `pi = 3.1415926540` of vandmc_core.cpp (an exact
decimal literal in the source). -/
def piC : ℚ := 31415926540 / 10000000000

/-- The global constant `deg2rad = pi/180.0` of vandmc_core.cpp. -/
def deg2rad : ℚ := piC / 180

/-- Modelled from the spec: `Vector3`, "three real-valued components
(x, y, z)"; the member implementations of `Vector3` are not under src/
(only their callers are). -/
structure Vector3 where
  x : ℚ
  y : ℚ
  z : ℚ
deriving DecidableEq, Repr

instance : Add Vector3 := ⟨fun a b => ⟨a.x + b.x, a.y + b.y, a.z + b.z⟩⟩

instance : Sub Vector3 := ⟨fun a b => ⟨a.x - b.x, a.y - b.y, a.z - b.z⟩⟩

instance : Neg Vector3 := ⟨fun a => ⟨-a.x, -a.y, -a.z⟩⟩

/-- Modelled from the spec: the scalar multiple `v*t` of a `Vector3`. -/
def Vector3.smul (t : ℚ) (v : Vector3) : Vector3 := ⟨v.x * t, v.y * t, v.z * t⟩

/-- Modelled from the spec: the Euclidean dot product `Vector3::Dot`. -/
def Vector3.dot (a b : Vector3) : ℚ := a.x * b.x + a.y * b.y + a.z * b.z

/-- The squared Euclidean length of a vector.  `Vector3::Length` is the
square root of this; since the square root is strictly monotone on
nonnegative reals, the source's comparisons of lengths are embedded as
comparisons of squared lengths. -/
def Vector3.sqLength (a : Vector3) : ℚ := a.x * a.x + a.y * a.y + a.z * a.z

/-- The fields of `Primitive` (geometry.cpp) read by the geometry code:
center `position`, local unit axes `detX`/`detY`/`detZ`, and the extents
`length` (local y), `width` (local x), `depth` (local z). -/
structure Primitive where
  position : Vector3
  detX : Vector3
  detY : Vector3
  detZ : Vector3
  length : ℚ
  width : ℚ
  depth : ℚ
deriving DecidableEq, Repr

/-- `Primitive::_set_face_coords` (geometry.cpp:148): the global center
point of face `face`.  The C++ caches the six points under the `need_set`
flag; the embedding computes them functionally. -/
def Primitive.globalFace (p : Primitive) (face : ℕ) : Vector3 :=
  if face = 0 then p.position - Vector3.smul (p.depth / 2) p.detZ
  else if face = 1 then p.position + Vector3.smul (p.width / 2) p.detX
  else if face = 2 then p.position + Vector3.smul (p.depth / 2) p.detZ
  else if face = 3 then p.position - Vector3.smul (p.width / 2) p.detX
  else if face = 4 then p.position + Vector3.smul (p.length / 2) p.detY
  else p.position - Vector3.smul (p.length / 2) p.detY

/-- `Primitive::GetUnitVector` (geometry.cpp:161). -/
def Primitive.getUnitVector (p : Primitive) (face : ℕ) : Vector3 :=
  if face = 0 then p.detZ
  else if face = 1 then p.detX
  else if face = 2 then -p.detZ
  else if face = 3 then -p.detX
  else if face = 4 then p.detY
  else if face = 5 then -p.detY
  else ⟨0, 0, 0⟩

/-- `Primitive::CheckBounds` (geometry.cpp:284): inclusive rectangular
bounds test of a local point against the two in-plane half-extents of a
face, on finite arguments.  The intersection loop can feed `CheckBounds`
non-finite doubles (from the unguarded division of `PlaneIntersect`), so
the loop uses the extended-value version `checkBoundsE` below, which
coincides with this one on finite arguments (`checkBoundsE_fin`). -/
def Primitive.checkBounds (p : Primitive) (face : ℕ) (x y z : ℚ) : Bool :=
  if face = 0 ∨ face = 2 then
    decide ((x ≥ -p.width / 2 ∧ x ≤ p.width / 2) ∧ (y ≥ -p.length / 2 ∧ y ≤ p.length / 2))
  else if face = 1 ∨ face = 3 then
    decide ((z ≥ -p.depth / 2 ∧ z ≤ p.depth / 2) ∧ (y ≥ -p.length / 2 ∧ y ≤ p.length / 2))
  else if face = 4 ∨ face = 5 then
    decide ((x ≥ -p.width / 2 ∧ x ≤ p.width / 2) ∧ (z ≥ -p.depth / 2 ∧ z ≤ p.depth / 2))
  else false

/-- IEEE-754-style extended value: finite rationals plus +inf, -inf, NaN.
Used to embed the unguarded division of `Primitive::PlaneIntersect`
faithfully.  Signed zero is not modelled: every finite zero is +0, which is
what the dot products of the parallel-ray scenario produce. -/
inductive ERat where
  | nan : ERat
  | pinf : ERat
  | ninf : ERat
  | fin : ℚ → ERat
deriving DecidableEq, Repr

/-- IEEE addition on extended values. -/
def ERat.add : ERat → ERat → ERat
  | .nan, _ => .nan
  | _, .nan => .nan
  | .pinf, .ninf => .nan
  | .ninf, .pinf => .nan
  | .pinf, _ => .pinf
  | _, .pinf => .pinf
  | .ninf, _ => .ninf
  | _, .ninf => .ninf
  | .fin a, .fin b => .fin (a + b)

/-- IEEE multiplication on extended values (`0 * inf = NaN`). -/
def ERat.mul : ERat → ERat → ERat
  | .nan, _ => .nan
  | _, .nan => .nan
  | .pinf, .pinf => .pinf
  | .pinf, .ninf => .ninf
  | .ninf, .pinf => .ninf
  | .ninf, .ninf => .pinf
  | .pinf, .fin b => if 0 < b then .pinf else if b < 0 then .ninf else .nan
  | .fin a, .pinf => if 0 < a then .pinf else if a < 0 then .ninf else .nan
  | .ninf, .fin b => if 0 < b then .ninf else if b < 0 then .pinf else .nan
  | .fin a, .ninf => if 0 < a then .ninf else if a < 0 then .pinf else .nan
  | .fin a, .fin b => .fin (a * b)

/-- IEEE division on extended values with +0 denominators:
`q/0 = ±inf` for finite `q ≠ 0`, `0/0 = NaN`, `inf/inf = NaN`. -/
def ERat.div : ERat → ERat → ERat
  | .nan, _ => .nan
  | _, .nan => .nan
  | .pinf, .pinf => .nan
  | .pinf, .ninf => .nan
  | .ninf, .pinf => .nan
  | .ninf, .ninf => .nan
  | .pinf, .fin b => if 0 ≤ b then .pinf else .ninf
  | .ninf, .fin b => if 0 ≤ b then .ninf else .pinf
  | .fin _, .pinf => .fin 0
  | .fin _, .ninf => .fin 0
  | .fin a, .fin b =>
    if b = 0 then (if 0 < a then .pinf else if a < 0 then .ninf else .nan)
    else .fin (a / b)

/-- IEEE `t >= 0`: false whenever `t` is NaN. -/
def ERat.geZero : ERat → Bool
  | .pinf => true
  | .ninf => false
  | .nan => false
  | .fin q => decide (0 ≤ q)

/-- IEEE negation on extended values. -/
def ERat.neg : ERat → ERat
  | .nan => .nan
  | .pinf => .ninf
  | .ninf => .pinf
  | .fin q => .fin (-q)

/-- IEEE subtraction on extended values. -/
def ERat.sub (a b : ERat) : ERat := a.add b.neg

/-- IEEE `a <= b`: false whenever either side is NaN. -/
def ERat.leB : ERat → ERat → Bool
  | .nan, _ => false
  | _, .nan => false
  | .ninf, _ => true
  | _, .pinf => true
  | .pinf, _ => false
  | .fin _, .ninf => false
  | .fin a, .fin b => decide (a ≤ b)

/-- IEEE `a < b`: false whenever either side is NaN. -/
def ERat.ltB : ERat → ERat → Bool
  | .nan, _ => false
  | _, .nan => false
  | .pinf, _ => false
  | _, .pinf => true
  | .ninf, .ninf => false
  | .ninf, _ => true
  | .fin _, .ninf => false
  | .fin a, .fin b => decide (a < b)

/-- Whether an extended value is finite. -/
def ERat.isFin : ERat → Bool
  | .fin _ => true
  | _ => false

/-- A 3-vector of IEEE-style extended values. -/
structure EVector3 where
  x : ERat
  y : ERat
  z : ERat
deriving DecidableEq, Repr

/-- A finite vector as extended values. -/
def Vector3.toE (v : Vector3) : EVector3 := ⟨.fin v.x, .fin v.y, .fin v.z⟩

/-- Modelled from the spec: componentwise `Vector3` subtraction, on the
extended values the intersection loop produces. -/
def EVector3.sub (a b : EVector3) : EVector3 :=
  ⟨a.x.sub b.x, a.y.sub b.y, a.z.sub b.z⟩

/-- Modelled from the spec: the Euclidean dot product `Vector3::Dot` on
extended values (the left-associated sum `x*x + y*y + z*z`). -/
def EVector3.dot (a b : EVector3) : ERat :=
  ((a.x.mul b.x).add (a.y.mul b.y)).add (a.z.mul b.z)

/-- The squared Euclidean length on extended values.  `Vector3::Length` is
its square root; since the square root is monotone with `sqrt(+inf) = +inf`
and `sqrt(NaN) = NaN`, the source's comparisons of lengths are embedded as
the corresponding IEEE comparisons of squared lengths. -/
def EVector3.sqLength (a : EVector3) : ERat := a.dot a

/-- `Primitive::PlaneIntersect` with the IEEE-754 behaviour of the
unguarded division (geometry.cpp:315-318).  All quantities upstream of the
division are finite, so they are computed in `ℚ`; the quotient `t` and the
point `P = offset + direction*t` are computed on extended values. -/
def Primitive.planeIntersectE (p : Primitive) (offset direction : Vector3) (face : ℕ) :
    Bool × EVector3 :=
  let unit := p.getUnitVector face
  let t : ERat := ERat.div (.fin ((p.globalFace face).dot unit - offset.dot unit))
    (.fin (direction.dot unit))
  let P : EVector3 :=
    ⟨ERat.add (.fin offset.x) (ERat.mul (.fin direction.x) t),
     ERat.add (.fin offset.y) (ERat.mul (.fin direction.y) t),
     ERat.add (.fin offset.z) (ERat.mul (.fin direction.z) t)⟩
  (t.geZero, P)

/-- `Primitive::GetLocalCoords` (geometry.cpp:172): local-frame coordinates
of a global point via dot products against the local axes.  The
intersection loop feeds it the (possibly non-finite) points of the
unguarded `PlaneIntersect`, so it is embedded on extended values; the
primitive's own position and axes are finite. -/
def Primitive.getLocalCoordsE (p : Primitive) (w : EVector3) : ERat × ERat × ERat :=
  ((w.sub p.position.toE).dot p.detX.toE,
   (w.sub p.position.toE).dot p.detY.toE,
   (w.sub p.position.toE).dot p.detZ.toE)

/-- `Primitive::CheckBounds` (geometry.cpp:284) on the extended values the
intersection loop produces: each `>=`/`<=` of the source is the IEEE
comparison (false on NaN), so a non-finite coordinate never passes.
`ERat.leB (.fin c) x` renders `x >= c`. -/
def Primitive.checkBoundsE (p : Primitive) (face : ℕ) (x y z : ERat) : Bool :=
  if face = 0 ∨ face = 2 then
    (ERat.leB (.fin (-p.width / 2)) x && ERat.leB x (.fin (p.width / 2))) &&
      (ERat.leB (.fin (-p.length / 2)) y && ERat.leB y (.fin (p.length / 2)))
  else if face = 1 ∨ face = 3 then
    (ERat.leB (.fin (-p.depth / 2)) z && ERat.leB z (.fin (p.depth / 2))) &&
      (ERat.leB (.fin (-p.length / 2)) y && ERat.leB y (.fin (p.length / 2)))
  else if face = 4 ∨ face = 5 then
    (ERat.leB (.fin (-p.width / 2)) x && ERat.leB x (.fin (p.width / 2))) &&
      (ERat.leB (.fin (-p.depth / 2)) z && ERat.leB z (.fin (p.depth / 2)))
  else false

/-- The by-reference outputs of `Primitive::IntersectPrimitive` together
with its loop counter `face_count`.  The output slots hold C++ doubles,
i.e. extended values. -/
structure HitState where
  faceCount : ℕ
  px : ERat
  py : ERat
  pz : ERat
  P1 : EVector3
  P2 : EVector3
  face1 : ℤ
  face2 : ℤ
deriving DecidableEq, Repr

/-- A `HitState` whose output slots hold zeros, standing for arbitrary
incoming values of the by-reference output parameters. -/
def hitState0 : HitState :=
  ⟨0, .fin 0, .fin 0, .fin 0, ⟨.fin 0, .fin 0, .fin 0⟩, ⟨.fin 0, .fin 0, .fin 0⟩, 0, 0⟩

/-- One iteration of the face loop of `Primitive::IntersectPrimitive`
(geometry.cpp:340-361): `PlaneIntersect` (with the IEEE behaviour of its
unguarded division), local coordinates, bounds test, recording of the
first two hits.  `P2.Length() < P1.Length()` is embedded as the IEEE
comparison of squared lengths. -/
def Primitive.intersectStep (p : Primitive) (offset direction : Vector3) (s : HitState)
    (i : ℕ) : HitState :=
  if (p.planeIntersectE offset direction i).1 then
    let ray := (p.planeIntersectE offset direction i).2
    let lc := p.getLocalCoordsE ray
    if p.checkBoundsE i lc.1 lc.2.1 lc.2.2 then
      if s.faceCount = 0 then
        { s with faceCount := 1, px := lc.1, py := lc.2.1, pz := lc.2.2,
                 P1 := ray, face1 := (i : ℤ) }
      else if s.faceCount = 1 then
        if ERat.ltB ray.sqLength s.P1.sqLength then
          { s with faceCount := 2, px := lc.1, py := lc.2.1, pz := lc.2.2,
                   P2 := ray, face2 := (i : ℤ) }
        else
          { s with faceCount := 2, P2 := ray, face2 := (i : ℤ) }
      else { s with faceCount := s.faceCount + 1 }
    else s
  else s

/-- `Primitive::IntersectPrimitive` (geometry.cpp:333): run the face loop
from `face_count = 0` over faces 0..5; `s0` carries the incoming values of
the by-reference output parameters.  Returns `face_count > 0` together with
the final outputs. -/
def Primitive.intersectPrimitive (p : Primitive) (offset direction : Vector3)
    (s0 : HitState) : Bool × HitState :=
  let s := (List.range 6).foldl (p.intersectStep offset direction) { s0 with faceCount := 0 }
  (decide (s.faceCount > 0), s)

/-- Face `i` is struck within bounds: the plane test of
`Primitive::PlaneIntersect` reports `t ≥ 0` and the intersection point
passes `CheckBounds` in local coordinates (geometry.cpp:342-345), with the
IEEE semantics of the unguarded division throughout. -/
def Primitive.strikes (p : Primitive) (offset direction : Vector3) (i : ℕ) : Bool :=
  (p.planeIntersectE offset direction i).1 &&
    (let lc := p.getLocalCoordsE (p.planeIntersectE offset direction i).2
     p.checkBoundsE i lc.1 lc.2.1 lc.2.2)

/-- The plane intersection point of face `i` (the `ray` of
geometry.cpp:342). -/
def Primitive.hitPoint (p : Primitive) (offset direction : Vector3) (i : ℕ) : EVector3 :=
  (p.planeIntersectE offset direction i).2

/-- The local coordinates of the plane intersection point of face `i`. -/
def Primitive.localOf (p : Primitive) (offset direction : Vector3) (i : ℕ) :
    ERat × ERat × ERat :=
  p.getLocalCoordsE (p.hitPoint offset direction i)

/-- A `Primitive` centered at the global origin with identity rotation
(local axes equal to the global axes) and size (L, W, D). -/
def prim0 (L W D : ℚ) : Primitive :=
  { position := ⟨0, 0, 0⟩, detX := ⟨1, 0, 0⟩, detY := ⟨0, 1, 0⟩, detZ := ⟨0, 0, 1⟩,
    length := L, width := W, depth := D }

/-- The state of `AngularDist` (vandmc_core.cpp); the owned C arrays are
lists.  The constructor leaves `rate` uninitialized; `fresh` below models a
freshly constructed object with `rate` taken as 0. -/
structure AngularDist where
  reaction_xsection : ℚ
  rate : ℚ
  num_points : ℕ
  init : Bool
  com_theta : List ℚ
  dsigma_domega : List ℚ
  integral : List ℚ
deriving DecidableEq, Repr

/-- A default-constructed `AngularDist` (vandmc_core.cpp:216). -/
def AngularDist.fresh : AngularDist := ⟨0, 0, 0, false, [], [], []⟩

/-- The per-bin trapezoid terms of the cross-section loops
(vandmc_core.cpp:279-284 and 324-329): for consecutive tabulated points,
`0.5*(x2-x1)*(y2+y1)*2*pi` with `y = dsigma_domega*sin(com_theta)`.
`sinQ` stands for `std::sin`. -/
def trapTerms (sinQ : ℚ → ℚ) : List ℚ → List ℚ → List ℚ
  | t1 :: t2 :: ts, d1 :: d2 :: ds =>
    (1/2 * (t2 - t1) * (d2 * sinQ t2 + d1 * sinQ t1) * 2 * piC) ::
      trapTerms sinQ (t2 :: ts) (d2 :: ds)
  | _, _ => []

/-- The running accumulation
`reaction_xsection += term; integral[i+1] = reaction_xsection`
(vandmc_core.cpp:282-283): the final accumulator together with the list of
partial accumulations. -/
def accumXs (acc : ℚ) : List ℚ → ℚ × List ℚ
  | [] => (acc, [])
  | t :: ts =>
    let r := accumXs (acc + t) ts
    (r.1, (acc + t) :: r.2)

/-- `AngularDist::Initialize(const char*, const double&, Target*)`
(vandmc_core.cpp:242).  `file` is the parsed input: `none` models a
missing/unreadable file (`!inFile.good()`), `some pairs` the stream of
(angle, dsigma/domega) pairs read by the `while` loop.  The target argument
is its number density (`Target::GetNumberDensity` is not under src/;
modelled from the spec: "a target's number density").  The member
`num_points` is incremented once per parsed pair before the
`num_points > 1` check, and is not rolled back on the failure branch.  When
the entering `num_points` is nonzero and the check passes, the C++ reads
uninitialized array slots (undefined behaviour); the success branch is
therefore examined by the theorems only for `num_points = 0` pre-states. -/
def AngularDist.initFromFile (sinQ : ℚ → ℚ) (a : AngularDist)
    (file : Option (List (ℚ × ℚ))) (beam_intensity : ℚ) (targ : Option ℚ) :
    Bool × AngularDist :=
  if a.init then (false, a)
  else
    match file with
    | none => (false, a)
    | some pairs =>
      let np := a.num_points + pairs.length
      if 1 < np then
        let th := pairs.map (fun pr => pr.1 * deg2rad)
        let ds := pairs.map (fun pr => pr.2)
        let acc := accumXs 0 (trapTerms sinQ th ds)
        let rate := match targ with
          | some dens => acc.1 * (1 / 10 ^ 27) * beam_intensity * dens
          | none => 0
        (true, { reaction_xsection := acc.1, rate := rate, num_points := np, init := true,
                 com_theta := th, dsigma_domega := ds, integral := 0 :: acc.2 })
      else (false, { a with num_points := np })

/-- `AngularDist::Initialize(const unsigned int&, double*, double*, const double&, Target*)`
(vandmc_core.cpp:304).  `angle`/`xsection` model the input arrays, of which
the C++ reads exactly the first `n` entries (`List.take n`); the caller
must supply at least `n`.  Note the rate lacks the `1E-27` factor of the
file overload (vandmc_core.cpp:332 versus 287). -/
def AngularDist.initFromArrays (sinQ : ℚ → ℚ) (a : AngularDist) (n : ℕ)
    (angle xsection : List ℚ) (beam_intensity : ℚ) (targ : Option ℚ) :
    Bool × AngularDist :=
  if a.init = true ∨ n ≤ 1 then (false, a)
  else
    let th := (angle.take n).map (fun q => q * deg2rad)
    let ds := xsection.take n
    let acc := accumXs 0 (trapTerms sinQ th ds)
    let rate := match targ with
      | some dens => acc.1 * beam_intensity * dens
      | none => 0
    (true, { reaction_xsection := acc.1, rate := rate, num_points := n, init := true,
             com_theta := th, dsigma_domega := ds, integral := 0 :: acc.2 })

/-- `AngularDist::Initialize(const double&)` (vandmc_core.cpp:338):
isotropic mode. -/
def AngularDist.initIso (a : AngularDist) (xsection : ℚ) : Bool × AngularDist :=
  if a.init = true ∨ xsection ≤ 0 then (false, a)
  else (true, { a with reaction_xsection := xsection, rate := 0, init := true })

/-- The linear search/interpolation loop of `AngularDist::Sample`
(vandmc_core.cpp:355-359) over consecutive entries of `integral` and
`com_theta`; falls through to the sentinel -1. -/
def sampleSearch : List ℚ → List ℚ → ℚ → ℚ
  | i0 :: i1 :: irest, t0 :: t1 :: trest, rx =>
    if i0 ≤ rx ∧ rx ≤ i1 then t0 + (rx - i0) * (t1 - t0) / (i1 - i0)
    else sampleSearch (i1 :: irest) (t1 :: trest) rx
  | _, _, _ => -1

/-- `AngularDist::Sample` (vandmc_core.cpp:350); `r` is the uniform draw
`frand()` in [0,1]. -/
def AngularDist.sample (a : AngularDist) (r : ℚ) : ℚ :=
  if a.init = false then -1
  else if 0 < a.num_points then sampleSearch a.integral a.com_theta (r * a.reaction_xsection)
  else r * piC

/-- The fields of `Line` (a 2D line segment) set by
`RegularPolygon::Initialize`. -/
structure Line where
  p1 : Vector3
  p2 : Vector3
  dir : Vector3
deriving DecidableEq, Repr

/-- The state of `RegularPolygon` (geometry.cpp). -/
structure RegularPolygon where
  nSides : ℕ
  sector : ℚ
  radius : ℚ
  chord_length : ℚ
  lines : List Line
  init : Bool
deriving DecidableEq, Repr

/-- A default-constructed `RegularPolygon` (geometry.cpp:12). -/
def RegularPolygon.fresh : RegularPolygon := ⟨0, 0, 0, 0, [], false⟩

/-- The side-construction loop of `RegularPolygon::Initialize`
(geometry.cpp:35-41); `theta` advances by `sector` each side and
`Vector3(a, b)` is the two-argument constructor (z = 0). -/
def buildSides (sinQ cosQ : ℚ → ℚ) (radius sector : ℚ) : ℕ → ℚ → List Line
  | 0, _ => []
  | n + 1, theta =>
    let p1 : Vector3 := ⟨radius * cosQ theta, radius * sinQ theta, 0⟩
    let p2 : Vector3 := ⟨radius * cosQ (theta + sector), radius * sinQ (theta + sector), 0⟩
    { p1 := p1, p2 := p2, dir := p2 - p1 } :: buildSides sinQ cosQ radius sector n (theta + sector)

/-- `RegularPolygon::Initialize` (geometry.cpp:25); `sinQ`/`cosQ` stand for
`std::sin`/`std::cos`. -/
def RegularPolygon.Initialize (sinQ cosQ : ℚ → ℚ) (p : RegularPolygon) (radius_ : ℚ)
    (nSides_ : ℕ) : Bool × RegularPolygon :=
  if p.init then (false, p)
  else
    let sector := 2 * piC / (nSides_ : ℚ)
    let radius := radius_ / cosQ (sector / 2)
    (true, { nSides := nSides_, sector := sector, radius := radius,
             chord_length := 2 * radius * sinQ (sector / 2),
             lines := buildSides sinQ cosQ radius sector nSides_ (-(sector / 2)),
             init := true })

/-- The claim's trapezoidal partial sum: the sum over `i < k` of
`0.5*(theta_{i+1}-theta_i)*(y_{i+1}+y_i)*2*pi` with
`y_i = dsigma_domega_i * sin(theta_i)`, over the already-converted (radian)
angle list. -/
def trapSumUpTo (sinQ : ℚ → ℚ) (th ds : List ℚ) (k : ℕ) : ℚ :=
  ∑ i ∈ Finset.range k,
    1/2 * (th.getD (i+1) 0 - th.getD i 0) *
      (ds.getD (i+1) 0 * sinQ (th.getD (i+1) 0) + ds.getD i 0 * sinQ (th.getD i 0)) * 2 * piC

/-- A concrete stand-in for `std::sin` used by closed evaluation theorems
whose truth does not depend on sine's values. -/
def sOne : ℚ → ℚ := fun _ => 1

/-- The sign factor for a boundary corner: +1 or -1. -/
def sgn (b : Bool) : ℚ := if b then 1 else -1

/-- An `AngularDist` in the initialized state (`init = true`). -/
def adInit : AngularDist := { AngularDist.fresh with init := true }

/-- A `RegularPolygon` in the initialized state (`init = true`). -/
def rpInit : RegularPolygon := { RegularPolygon.fresh with init := true }

@[simp] theorem Vector3.add_def (a b : Vector3) :
    a + b = ⟨a.x + b.x, a.y + b.y, a.z + b.z⟩ := rfl

@[simp] theorem Vector3.sub_def (a b : Vector3) :
    a - b = ⟨a.x - b.x, a.y - b.y, a.z - b.z⟩ := rfl

@[simp] theorem Vector3.neg_def (a : Vector3) : -a = ⟨-a.x, -a.y, -a.z⟩ := rfl

@[simp] theorem ERat.div_fin_fin (a b : ℚ) :
    ERat.div (.fin a) (.fin b) =
      if b = 0 then (if 0 < a then .pinf else if a < 0 then .ninf else .nan)
      else .fin (a / b) := rfl

@[simp] theorem ERat.mul_fin_pinf (a : ℚ) :
    ERat.mul (.fin a) .pinf = if 0 < a then .pinf else if a < 0 then .ninf else .nan := rfl

@[simp] theorem ERat.mul_fin_fin (a b : ℚ) : ERat.mul (.fin a) (.fin b) = .fin (a * b) := rfl

@[simp] theorem ERat.add_fin_pinf (a : ℚ) : ERat.add (.fin a) .pinf = .pinf := rfl

@[simp] theorem ERat.add_fin_nan (a : ℚ) : ERat.add (.fin a) .nan = .nan := rfl

@[simp] theorem ERat.add_fin_fin (a b : ℚ) : ERat.add (.fin a) (.fin b) = .fin (a + b) := rfl

@[simp] theorem ERat.geZero_pinf : ERat.geZero .pinf = true := rfl

@[simp] theorem ERat.geZero_fin (q : ℚ) : ERat.geZero (.fin q) = decide (0 ≤ q) := rfl

@[simp] theorem ERat.geZero_ninf : ERat.geZero .ninf = false := rfl

@[simp] theorem ERat.geZero_nan : ERat.geZero .nan = false := rfl

@[simp] theorem ERat.mul_fin_ninf (a : ℚ) :
    ERat.mul (.fin a) .ninf = if 0 < a then .ninf else if a < 0 then .pinf else .nan := rfl

@[simp] theorem ERat.mul_nan_left (x : ERat) : ERat.mul .nan x = .nan := by
  cases x <;> rfl

@[simp] theorem ERat.mul_pinf_fin (b : ℚ) :
    ERat.mul .pinf (.fin b) = if 0 < b then .pinf else if b < 0 then .ninf else .nan := rfl

@[simp] theorem ERat.mul_ninf_fin (b : ℚ) :
    ERat.mul .ninf (.fin b) = if 0 < b then .ninf else if b < 0 then .pinf else .nan := rfl

@[simp] theorem ERat.add_fin_ninf (a : ℚ) : ERat.add (.fin a) .ninf = .ninf := rfl

@[simp] theorem ERat.add_nan_left (x : ERat) : ERat.add .nan x = .nan := by
  cases x <;> rfl

@[simp] theorem ERat.add_nan_right (x : ERat) : ERat.add x .nan = .nan := by
  cases x <;> rfl

@[simp] theorem ERat.add_pinf_fin (b : ℚ) : ERat.add .pinf (.fin b) = .pinf := rfl

@[simp] theorem ERat.add_ninf_fin (b : ℚ) : ERat.add .ninf (.fin b) = .ninf := rfl

@[simp] theorem ERat.neg_fin (a : ℚ) : ERat.neg (.fin a) = .fin (-a) := rfl

@[simp] theorem ERat.sub_fin_fin (a b : ℚ) : ERat.sub (.fin a) (.fin b) = .fin (a - b) := by
  simp [ERat.sub, sub_eq_add_neg]

@[simp] theorem ERat.sub_nan_left (b : ℚ) : ERat.sub .nan (.fin b) = .nan := rfl

@[simp] theorem ERat.sub_pinf_fin (b : ℚ) : ERat.sub .pinf (.fin b) = .pinf := rfl

@[simp] theorem ERat.sub_ninf_fin (b : ℚ) : ERat.sub .ninf (.fin b) = .ninf := rfl

@[simp] theorem ERat.leB_fin_fin (a b : ℚ) :
    ERat.leB (.fin a) (.fin b) = decide (a ≤ b) := rfl

@[simp] theorem ERat.leB_fin_nan (a : ℚ) : ERat.leB (.fin a) .nan = false := rfl

@[simp] theorem ERat.leB_fin_pinf (a : ℚ) : ERat.leB (.fin a) .pinf = true := rfl

@[simp] theorem ERat.leB_fin_ninf (a : ℚ) : ERat.leB (.fin a) .ninf = false := rfl

@[simp] theorem ERat.leB_pinf_fin (b : ℚ) : ERat.leB .pinf (.fin b) = false := rfl

@[simp] theorem ERat.ltB_fin_fin (a b : ℚ) :
    ERat.ltB (.fin a) (.fin b) = decide (a < b) := rfl

/-- The squared length of a finite vector is the finite rational squared
length. -/
theorem toE_sqLength (v : Vector3) : (Vector3.toE v).sqLength = .fin v.sqLength := rfl

/-- On finite arguments the extended-value bounds test is exactly
`Primitive::CheckBounds` on rationals. -/
theorem checkBoundsE_fin (p : Primitive) (face : ℕ) (x y z : ℚ) :
    p.checkBoundsE face (.fin x) (.fin y) (.fin z) = p.checkBounds face x y z := by
  unfold Primitive.checkBoundsE Primitive.checkBounds
  split_ifs <;> simp [ge_iff_le, Bool.decide_and]

/-- C1: the claim is violated (code bug): for the ray from (0,0,-10) with
direction (1,0,0), exactly parallel to face 0 of the unit primitive at the
origin (direction·normal = 0), the unguarded division of
`Primitive::PlaneIntersect` (guard commented out at geometry.cpp:315-316)
produces `t = +inf`; the test reports the face as intersected (`t ≥ 0`
holds of +inf) and propagates the unbounded point (+inf, NaN, NaN). -/
theorem C1_parallel_ray_unbounded :
    Vector3.dot ⟨1, 0, 0⟩ ((prim0 1 1 1).getUnitVector 0) = 0 ∧
    (prim0 1 1 1).planeIntersectE ⟨0, 0, -10⟩ ⟨1, 0, 0⟩ 0 =
      (true, ⟨ERat.pinf, ERat.nan, ERat.nan⟩) := by
  constructor
  · norm_num [Vector3.dot, prim0, Primitive.getUnitVector]
  · norm_num [Primitive.planeIntersectE, prim0, Primitive.getUnitVector,
      Primitive.globalFace, Vector3.dot, Vector3.smul]

/-- C4: the claim is violated (code bug): a file-based `Initialize` on a
fresh `AngularDist` with a one-point file fails (returns false) but leaves
`num_points = 1` instead of the pre-call value 0, because the member
`num_points` is incremented during parsing (vandmc_core.cpp:255) and never
rolled back on the `num_points > 1` failure branch. -/
theorem C4_failed_file_init_mutates :
    (AngularDist.initFromFile sOne AngularDist.fresh (some [(30, 5)]) 0 none).1 = false ∧
    (AngularDist.initFromFile sOne AngularDist.fresh (some [(30, 5)]) 0 none).2.num_points = 1 ∧
    AngularDist.fresh.num_points = 0 := by
  refine ⟨rfl, rfl, rfl⟩

/-- C5: every `Initialize` call on an already-initialized object (any
`AngularDist` overload, and `RegularPolygon::Initialize`) returns false and
leaves the object's state completely unchanged: each checks `init` first
and returns before touching any field. -/
theorem C5_double_initialize_rejected (sinQ cosQ : ℚ → ℚ) (a : AngularDist)
    (p : RegularPolygon) (file : Option (List (ℚ × ℚ))) (bi : ℚ) (targ : Option ℚ)
    (n : ℕ) (ang xs : List ℚ) (x r : ℚ) (ns : ℕ)
    (ha : a.init = true) (hp : p.init = true) :
    a.initFromFile sinQ file bi targ = (false, a) ∧
    a.initFromArrays sinQ n ang xs bi targ = (false, a) ∧
    a.initIso x = (false, a) ∧
    p.Initialize sinQ cosQ r ns = (false, p) := by
  refine ⟨?_, ?_, ?_, ?_⟩
  · simp [AngularDist.initFromFile, ha]
  · simp [AngularDist.initFromArrays, ha]
  · simp [AngularDist.initIso, ha]
  · simp [RegularPolygon.Initialize, hp]

/-- C5 witness: concrete initialized objects; every overload rejects the
second initialization and returns the object unchanged. -/
theorem C5_witness :
    adInit.initFromFile sOne none 0 none = (false, adInit) ∧
    adInit.initFromArrays sOne 0 [] [] 0 none = (false, adInit) ∧
    adInit.initIso 1 = (false, adInit) ∧
    rpInit.Initialize sOne sOne 1 3 = (false, rpInit) :=
  C5_double_initialize_rejected sOne sOne adInit rpInit none 0 none 0 [] [] 1 1 3 rfl rfl

/-- C9: `AngularDist::Sample` returns the sentinel -1 whenever the object
is not initialized (`init = false`: no `Initialize` call has succeeded,
since only successful calls set `init`), regardless of the random draw. -/
theorem C9_sample_uninitialized (a : AngularDist) (r : ℚ) (h : a.init = false) :
    a.sample r = -1 := by
  simp [AngularDist.sample, h]

/-- C9 witness: a fresh `AngularDist` with the draw 1/2. -/
theorem C9_witness :
    AngularDist.fresh.init = false ∧ AngularDist.fresh.sample (1/2) = -1 :=
  ⟨rfl, C9_sample_uninitialized AngularDist.fresh (1/2) rfl⟩

theorem intersectStep_faceCount (p : Primitive) (o d : Vector3) (s : HitState) (i : ℕ) :
    (p.intersectStep o d s i).faceCount =
      s.faceCount + (if p.strikes o d i then 1 else 0) := by
  simp only [Primitive.intersectStep, Primitive.strikes]
  split_ifs with h1 h2 h3 h4 h5 <;> simp_all

theorem intersectStep_of_not_strikes (p : Primitive) (o d : Vector3) (s : HitState) (i : ℕ)
    (h : p.strikes o d i = false) : p.intersectStep o d s i = s := by
  simp only [Primitive.intersectStep]
  by_cases h1 : (p.planeIntersectE o d i).1
  · have h2 : p.checkBoundsE i (p.getLocalCoordsE (p.planeIntersectE o d i).2).1
        (p.getLocalCoordsE (p.planeIntersectE o d i).2).2.1
        (p.getLocalCoordsE (p.planeIntersectE o d i).2).2.2 = false := by
      revert h
      simp [Primitive.strikes, h1]
    simp [h1, h2]
  · simp [Bool.not_eq_true] at h1
    simp [h1]

theorem intersectStep_of_strikes_zero (p : Primitive) (o d : Vector3) (s : HitState) (i : ℕ)
    (h : p.strikes o d i = true) (h0 : s.faceCount = 0) :
    p.intersectStep o d s i =
      { s with faceCount := 1, px := (p.localOf o d i).1, py := (p.localOf o d i).2.1,
               pz := (p.localOf o d i).2.2, P1 := p.hitPoint o d i, face1 := (i : ℤ) } := by
  simp only [Primitive.strikes, Bool.and_eq_true] at h
  simp [Primitive.intersectStep, h.1, h.2, h0, Primitive.localOf, Primitive.hitPoint]

theorem intersectStep_of_strikes_one (p : Primitive) (o d : Vector3) (s : HitState) (i : ℕ)
    (h : p.strikes o d i = true) (h1 : s.faceCount = 1) :
    p.intersectStep o d s i =
      if ERat.ltB (p.hitPoint o d i).sqLength s.P1.sqLength then
        { s with faceCount := 2, px := (p.localOf o d i).1, py := (p.localOf o d i).2.1,
                 pz := (p.localOf o d i).2.2, P2 := p.hitPoint o d i, face2 := (i : ℤ) }
      else { s with faceCount := 2, P2 := p.hitPoint o d i, face2 := (i : ℤ) } := by
  simp only [Primitive.strikes, Bool.and_eq_true] at h
  simp [Primitive.intersectStep, h.1, h.2, h1, Primitive.localOf, Primitive.hitPoint]

theorem intersectStep_of_strikes_ge2 (p : Primitive) (o d : Vector3) (s : HitState) (i : ℕ)
    (h : p.strikes o d i = true) (h2 : 2 ≤ s.faceCount) :
    p.intersectStep o d s i = { s with faceCount := s.faceCount + 1 } := by
  simp only [Primitive.strikes, Bool.and_eq_true] at h
  have e0 : s.faceCount ≠ 0 := by omega
  have e1 : s.faceCount ≠ 1 := by omega
  simp [Primitive.intersectStep, h.1, h.2, e0, e1]

theorem foldl_step_faceCount (p : Primitive) (o d : Vector3) (l : List ℕ) :
    ∀ s : HitState,
      ((l.foldl (p.intersectStep o d) s).faceCount) =
        s.faceCount + (l.filter (fun i => p.strikes o d i)).length := by
  induction l with
  | nil => intro s; simp
  | cons a t ih =>
    intro s
    simp only [List.foldl_cons, List.filter_cons]
    rw [ih]
    by_cases h : p.strikes o d a = true
    · rw [intersectStep_faceCount]
      simp [h]
      omega
    · rw [intersectStep_of_not_strikes p o d s a (by simp [h])]
      simp [h]

theorem foldl_step_outputs_frozen (p : Primitive) (o d : Vector3) (l : List ℕ) :
    ∀ s : HitState, 2 ≤ s.faceCount →
      (l.foldl (p.intersectStep o d) s).px = s.px ∧
      (l.foldl (p.intersectStep o d) s).py = s.py ∧
      (l.foldl (p.intersectStep o d) s).pz = s.pz ∧
      (l.foldl (p.intersectStep o d) s).P1 = s.P1 ∧
      (l.foldl (p.intersectStep o d) s).P2 = s.P2 ∧
      (l.foldl (p.intersectStep o d) s).face1 = s.face1 ∧
      (l.foldl (p.intersectStep o d) s).face2 = s.face2 := by
  induction l with
  | nil => intro s _; simp
  | cons a t ih =>
    intro s hs
    simp only [List.foldl_cons]
    by_cases h : p.strikes o d a = true
    · rw [intersectStep_of_strikes_ge2 p o d s a h hs]
      exact ih _ (by simp; omega)
    · rw [intersectStep_of_not_strikes p o d s a (by simp [h])]
      exact ih s hs

theorem foldl_step_from_one (p : Primitive) (o d : Vector3) (l : List ℕ) :
    ∀ (s : HitState) (b : ℕ) (rest : List ℕ), s.faceCount = 1 →
      l.filter (fun i => p.strikes o d i) = b :: rest →
      (l.foldl (p.intersectStep o d) s).P1 = s.P1 ∧
      (l.foldl (p.intersectStep o d) s).face1 = s.face1 ∧
      (l.foldl (p.intersectStep o d) s).P2 = p.hitPoint o d b ∧
      (l.foldl (p.intersectStep o d) s).face2 = (b : ℤ) ∧
      ((l.foldl (p.intersectStep o d) s).px, (l.foldl (p.intersectStep o d) s).py,
        (l.foldl (p.intersectStep o d) s).pz) =
        (if ERat.ltB (p.hitPoint o d b).sqLength s.P1.sqLength then p.localOf o d b
         else (s.px, s.py, s.pz)) := by
  induction l with
  | nil => intro s b rest _ hf; simp at hf
  | cons a t ih =>
    intro s b rest hs hf
    simp only [List.filter_cons] at hf
    by_cases h : p.strikes o d a = true
    · simp only [h, if_true] at hf
      injection hf with hab hrest
      subst hab
      simp only [List.foldl_cons]
      rw [intersectStep_of_strikes_one p o d s a h hs]
      by_cases hlt : ERat.ltB (p.hitPoint o d a).sqLength s.P1.sqLength = true
      · rw [if_pos hlt]
        obtain ⟨e1, e2, e3, e4, e5, e6, e7⟩ := foldl_step_outputs_frozen p o d t
          { s with faceCount := 2, px := (p.localOf o d a).1, py := (p.localOf o d a).2.1,
                   pz := (p.localOf o d a).2.2, P2 := p.hitPoint o d a, face2 := (a : ℤ) }
          (le_refl 2)
        exact ⟨e4, e6, e5, e7, by rw [e1, e2, e3, if_pos hlt]⟩
      · rw [if_neg hlt]
        obtain ⟨e1, e2, e3, e4, e5, e6, e7⟩ := foldl_step_outputs_frozen p o d t
          { s with faceCount := 2, P2 := p.hitPoint o d a, face2 := (a : ℤ) } (le_refl 2)
        exact ⟨e4, e6, e5, e7, by rw [e1, e2, e3, if_neg hlt]⟩
    · simp only [h] at hf
      simp only [Bool.false_eq_true, if_false] at hf
      simp only [List.foldl_cons]
      rw [intersectStep_of_not_strikes p o d s a (by simp [h])]
      exact ih s b rest hs hf

theorem foldl_step_from_zero (p : Primitive) (o d : Vector3) (l : List ℕ) :
    ∀ (s : HitState) (a b : ℕ) (rest : List ℕ), s.faceCount = 0 →
      l.filter (fun i => p.strikes o d i) = a :: b :: rest →
      (l.foldl (p.intersectStep o d) s).P1 = p.hitPoint o d a ∧
      (l.foldl (p.intersectStep o d) s).face1 = (a : ℤ) ∧
      (l.foldl (p.intersectStep o d) s).P2 = p.hitPoint o d b ∧
      (l.foldl (p.intersectStep o d) s).face2 = (b : ℤ) ∧
      ((l.foldl (p.intersectStep o d) s).px, (l.foldl (p.intersectStep o d) s).py,
        (l.foldl (p.intersectStep o d) s).pz) =
        (if ERat.ltB (p.hitPoint o d b).sqLength (p.hitPoint o d a).sqLength
         then p.localOf o d b else p.localOf o d a) := by
  induction l with
  | nil => intro s a b rest _ hf; simp at hf
  | cons j t ih =>
    intro s a b rest hs hf
    simp only [List.filter_cons] at hf
    by_cases h : p.strikes o d j = true
    · simp only [h, if_true] at hf
      injection hf with haj hrest
      subst haj
      simp only [List.foldl_cons]
      rw [intersectStep_of_strikes_zero p o d s j h hs]
      obtain ⟨e1, e2, e3, e4, e5⟩ := foldl_step_from_one p o d t
        { s with faceCount := 1, px := (p.localOf o d j).1, py := (p.localOf o d j).2.1,
                 pz := (p.localOf o d j).2.2, P1 := p.hitPoint o d j, face1 := (j : ℤ) }
        b rest rfl hrest
      exact ⟨e1, e2, e3, e4, e5⟩
    · simp only [h] at hf
      simp only [Bool.false_eq_true, if_false] at hf
      simp only [List.foldl_cons]
      rw [intersectStep_of_not_strikes p o d s j (by simp [h])]
      exact ih s a b rest hs hf

/-- C6: `IntersectPrimitive` reports a hit exactly when at least one of the
six faces is struck within bounds (its plane test reports `t ≥ 0` and the
crossing point passes `CheckBounds`, with the IEEE semantics of the
unguarded division, under which a ray parallel to a face plane never
strikes that face); in particular a ray striking no face within bounds —
e.g. one passing entirely outside the projected footprint of all six
faces — reports no intersection. -/
theorem C6_intersect_iff_face_struck (p : Primitive) (o d : Vector3) (s0 : HitState) :
    (p.intersectPrimitive o d s0).1 = true ↔ ∃ i, i < 6 ∧ p.strikes o d i = true := by
  simp only [Primitive.intersectPrimitive]
  rw [foldl_step_faceCount]
  simp only [gt_iff_lt, decide_eq_true_eq]
  constructor
  · intro h
    have hne : (List.range 6).filter (fun i => p.strikes o d i) ≠ [] := by
      intro he
      rw [he] at h
      simp at h
    obtain ⟨i, hi⟩ := List.exists_mem_of_ne_nil _ hne
    rw [List.mem_filter] at hi
    exact ⟨i, List.mem_range.mp hi.1, hi.2⟩
  · intro ⟨i, hi, hs⟩
    have : i ∈ (List.range 6).filter (fun i => p.strikes o d i) := by
      rw [List.mem_filter]
      exact ⟨List.mem_range.mpr hi, hs⟩
    have := List.length_pos.mpr (List.ne_nil_of_mem this)
    omega

theorem ERat.mul_fin_nonfin (a : ℚ) (t : ERat) (h : t.isFin = false) :
    (ERat.mul (.fin a) t).isFin = false := by
  cases t with
  | nan => rfl
  | pinf => simp only [ERat.mul_fin_pinf]; split_ifs <;> rfl
  | ninf => simp only [ERat.mul_fin_ninf]; split_ifs <;> rfl
  | fin q => simp [ERat.isFin] at h

theorem ERat.mul_nonfin_fin (t : ERat) (b : ℚ) (h : t.isFin = false) :
    (ERat.mul t (.fin b)).isFin = false := by
  cases t with
  | nan => rfl
  | pinf => simp only [ERat.mul_pinf_fin]; split_ifs <;> rfl
  | ninf => simp only [ERat.mul_ninf_fin]; split_ifs <;> rfl
  | fin q => simp [ERat.isFin] at h

theorem ERat.add_fin_nonfin (a : ℚ) (t : ERat) (h : t.isFin = false) :
    (ERat.add (.fin a) t).isFin = false := by
  cases t <;> simp_all [ERat.isFin]

theorem ERat.add_nonfin_nonfin (s t : ERat) (hs : s.isFin = false) (ht : t.isFin = false) :
    (ERat.add s t).isFin = false := by
  cases s <;> cases t <;> simp_all [ERat.isFin, ERat.add]

theorem ERat.sub_nonfin_fin (t : ERat) (b : ℚ) (h : t.isFin = false) :
    (ERat.sub t (.fin b)).isFin = false := by
  cases t <;> simp_all [ERat.isFin]

theorem ERat.leB_pair_nonfin (c d : ℚ) (x : ERat) (h : x.isFin = false) :
    (ERat.leB (.fin c) x && ERat.leB x (.fin d)) = false := by
  cases x <;> simp_all [ERat.isFin]

theorem checkBoundsE_nonfin (p : Primitive) (face : ℕ) (x y z : ERat)
    (hx : x.isFin = false) (hy : y.isFin = false) (hz : z.isFin = false) :
    p.checkBoundsE face x y z = false := by
  unfold Primitive.checkBoundsE
  split_ifs <;>
    simp [ERat.leB_pair_nonfin _ _ _ hx, ERat.leB_pair_nonfin _ _ _ hy,
      ERat.leB_pair_nonfin _ _ _ hz]

theorem dot_nonfin_toE (w : EVector3) (v : Vector3) (hx : w.x.isFin = false)
    (hy : w.y.isFin = false) (hz : w.z.isFin = false) :
    (EVector3.dot w (Vector3.toE v)).isFin = false := by
  unfold EVector3.dot Vector3.toE
  exact ERat.add_nonfin_nonfin _ _
    (ERat.add_nonfin_nonfin _ _ (ERat.mul_nonfin_fin _ _ hx) (ERat.mul_nonfin_fin _ _ hy))
    (ERat.mul_nonfin_fin _ _ hz)

/-- A face that is struck has a finite intersection point: when the
denominator `direction·unit` is zero the unguarded division produces a
non-finite `t`, every coordinate of `P` and of its local coordinates is
non-finite, and the IEEE bounds test rejects the face; when the
denominator is nonzero the whole computation is finite. -/
theorem hitPoint_toE_of_strikes (p : Primitive) (o d : Vector3) (i : ℕ)
    (h : p.strikes o d i = true) :
    ∃ v : Vector3, p.hitPoint o d i = Vector3.toE v := by
  by_cases hd : d.dot (p.getUnitVector i) = 0
  · exfalso
    simp only [Primitive.strikes, Primitive.planeIntersectE, Primitive.getLocalCoordsE,
      Bool.and_eq_true] at h
    obtain ⟨hge, hcb⟩ := h
    rw [hd] at hge hcb
    set T : ERat := ERat.div
      (.fin ((p.globalFace i).dot (p.getUnitVector i) - o.dot (p.getUnitVector i)))
      (.fin 0) with hTdef
    set Pv : EVector3 := ⟨ERat.add (.fin o.x) (ERat.mul (.fin d.x) T),
      ERat.add (.fin o.y) (ERat.mul (.fin d.y) T),
      ERat.add (.fin o.z) (ERat.mul (.fin d.z) T)⟩ with hPdef
    set Wv : EVector3 := Pv.sub p.position.toE with hWdef
    have hT : T.isFin = false := by
      rw [hTdef]
      simp only [ERat.div_fin_fin, if_pos rfl]
      split_ifs <;> rfl
    have hSx : Wv.x.isFin = false :=
      ERat.sub_nonfin_fin _ p.position.x (ERat.add_fin_nonfin o.x _ (ERat.mul_fin_nonfin d.x _ hT))
    have hSy : Wv.y.isFin = false :=
      ERat.sub_nonfin_fin _ p.position.y (ERat.add_fin_nonfin o.y _ (ERat.mul_fin_nonfin d.y _ hT))
    have hSz : Wv.z.isFin = false :=
      ERat.sub_nonfin_fin _ p.position.z (ERat.add_fin_nonfin o.z _ (ERat.mul_fin_nonfin d.z _ hT))
    have hlc1 := dot_nonfin_toE Wv p.detX hSx hSy hSz
    have hlc2 := dot_nonfin_toE Wv p.detY hSx hSy hSz
    have hlc3 := dot_nonfin_toE Wv p.detZ hSx hSy hSz
    rw [checkBoundsE_nonfin p i _ _ _ hlc1 hlc2 hlc3] at hcb
    exact Bool.false_ne_true hcb
  · refine ⟨⟨o.x + d.x * (((p.globalFace i).dot (p.getUnitVector i) -
        o.dot (p.getUnitVector i)) / (d.dot (p.getUnitVector i))),
      o.y + d.y * (((p.globalFace i).dot (p.getUnitVector i) -
        o.dot (p.getUnitVector i)) / (d.dot (p.getUnitVector i))),
      o.z + d.z * (((p.globalFace i).dot (p.getUnitVector i) -
        o.dot (p.getUnitVector i)) / (d.dot (p.getUnitVector i)))⟩, ?_⟩
    simp [Primitive.hitPoint, Primitive.planeIntersectE, Vector3.toE, hd]

theorem sqLength_fin_of_strikes (p : Primitive) (o d : Vector3) (i : ℕ)
    (h : p.strikes o d i = true) :
    ∃ q : ℚ, (p.hitPoint o d i).sqLength = .fin q := by
  obtain ⟨v, hv⟩ := hitPoint_toE_of_strikes p o d i h
  exact ⟨v.sqLength, by rw [hv, toE_sqLength]⟩

/-- C3: when exactly two faces pass the bounds test, the local coordinates
(px, py, pz) returned by `IntersectPrimitive` are those of the nearer of
the two valid intersection points — the one whose distance from the global
origin (`Vector3::Length` of the hit point, compared here via squared
lengths, an order-preserving change since both points are finite) is less
than or equal to the other's. -/
theorem C3_nearer_hit_local_coords (p : Primitive) (o d : Vector3) (s0 : HitState) (a b : ℕ)
    (h : (List.range 6).filter (fun i => p.strikes o d i) = [a, b]) :
    (p.intersectPrimitive o d s0).2.P1 = p.hitPoint o d a ∧
    (p.intersectPrimitive o d s0).2.P2 = p.hitPoint o d b ∧
    ∃ c, (c = a ∨ c = b) ∧
      ERat.leB (p.hitPoint o d c).sqLength (p.hitPoint o d a).sqLength = true ∧
      ERat.leB (p.hitPoint o d c).sqLength (p.hitPoint o d b).sqLength = true ∧
      ((p.intersectPrimitive o d s0).2.px, (p.intersectPrimitive o d s0).2.py,
        (p.intersectPrimitive o d s0).2.pz) = p.localOf o d c := by
  have hsa : p.strikes o d a = true := by
    have hm : a ∈ (List.range 6).filter (fun i => p.strikes o d i) := by
      rw [h]
      simp
    exact (List.mem_filter.mp hm).2
  have hsb : p.strikes o d b = true := by
    have hm : b ∈ (List.range 6).filter (fun i => p.strikes o d i) := by
      rw [h]
      simp
    exact (List.mem_filter.mp hm).2
  obtain ⟨qa, hqa⟩ := sqLength_fin_of_strikes p o d a hsa
  obtain ⟨qb, hqb⟩ := sqLength_fin_of_strikes p o d b hsb
  simp only [Primitive.intersectPrimitive]
  obtain ⟨e1, e2, e3, e4, e5⟩ :=
    foldl_step_from_zero p o d (List.range 6) { s0 with faceCount := 0 } a b [] (by simp) h
  refine ⟨e1, e3, ?_⟩
  by_cases hlt : ERat.ltB (p.hitPoint o d b).sqLength (p.hitPoint o d a).sqLength = true
  · refine ⟨b, Or.inr rfl, ?_, ?_, ?_⟩
    · rw [hqa, hqb] at hlt ⊢
      simp only [ERat.ltB_fin_fin, decide_eq_true_eq] at hlt
      simp [le_of_lt hlt]
    · rw [hqb]
      simp
    · rw [e5, if_pos hlt]
  · refine ⟨a, Or.inl rfl, ?_, ?_, ?_⟩
    · rw [hqa]
      simp
    · rw [hqa, hqb] at hlt ⊢
      simp only [ERat.ltB_fin_fin, decide_eq_true_eq] at hlt
      simp [not_lt.mp hlt]
    · rw [e5, if_neg hlt]

theorem prim0_strikes_zero (L W D : ℚ) (hL : 0 < L) (hW : 0 < W) (hD2 : D / 2 < 10) :
    (prim0 L W D).strikes ⟨0, 0, -10⟩ ⟨0, 0, 1⟩ 0 = true := by
  simp only [Primitive.strikes, Primitive.planeIntersectE, Primitive.getUnitVector,
    Primitive.globalFace, prim0, Vector3.dot, Vector3.smul, Vector3.toE,
    Primitive.getLocalCoordsE, Primitive.checkBoundsE, EVector3.sub, EVector3.dot,
    Vector3.add_def, Vector3.sub_def, Vector3.neg_def]
  norm_num
  exact ⟨by linarith, ⟨by linarith, by linarith⟩, by linarith, by linarith⟩

theorem prim0_strikes_two (L W D : ℚ) (hL : 0 < L) (hW : 0 < W) (hD : 0 < D) :
    (prim0 L W D).strikes ⟨0, 0, -10⟩ ⟨0, 0, 1⟩ 2 = true := by
  simp only [Primitive.strikes, Primitive.planeIntersectE, Primitive.getUnitVector,
    Primitive.globalFace, prim0, Vector3.dot, Vector3.smul, Vector3.toE,
    Primitive.getLocalCoordsE, Primitive.checkBoundsE, EVector3.sub, EVector3.dot,
    Vector3.add_def, Vector3.sub_def, Vector3.neg_def]
  norm_num
  exact ⟨by linarith, ⟨by linarith, by linarith⟩, by linarith, by linarith⟩

theorem prim0_strikes_one (L W D : ℚ) (hW : 0 < W) :
    (prim0 L W D).strikes ⟨0, 0, -10⟩ ⟨0, 0, 1⟩ 1 = false := by
  have hw2 : 0 < W / 2 := by linarith
  simp only [Primitive.strikes, Primitive.planeIntersectE, Primitive.getUnitVector,
    Primitive.globalFace, prim0, Vector3.dot, Vector3.smul, Vector3.toE,
    Primitive.getLocalCoordsE, Primitive.checkBoundsE, EVector3.sub, EVector3.dot,
    Vector3.add_def, Vector3.sub_def, Vector3.neg_def]
  norm_num [hw2]

theorem prim0_strikes_three (L W D : ℚ) (hW : 0 < W) :
    (prim0 L W D).strikes ⟨0, 0, -10⟩ ⟨0, 0, 1⟩ 3 = false := by
  have hw2 : 0 < W / 2 := by linarith
  simp only [Primitive.strikes, Primitive.planeIntersectE, Primitive.getUnitVector,
    Primitive.globalFace, prim0, Vector3.dot, Vector3.smul, Vector3.toE,
    Primitive.getLocalCoordsE, Primitive.checkBoundsE, EVector3.sub, EVector3.dot,
    Vector3.add_def, Vector3.sub_def, Vector3.neg_def]
  norm_num [hw2]

theorem prim0_strikes_four (L W D : ℚ) (hL : 0 < L) :
    (prim0 L W D).strikes ⟨0, 0, -10⟩ ⟨0, 0, 1⟩ 4 = false := by
  have hl2 : 0 < L / 2 := by linarith
  simp only [Primitive.strikes, Primitive.planeIntersectE, Primitive.getUnitVector,
    Primitive.globalFace, prim0, Vector3.dot, Vector3.smul, Vector3.toE,
    Primitive.getLocalCoordsE, Primitive.checkBoundsE, EVector3.sub, EVector3.dot,
    Vector3.add_def, Vector3.sub_def, Vector3.neg_def]
  norm_num [hl2]

theorem prim0_strikes_five (L W D : ℚ) (hL : 0 < L) :
    (prim0 L W D).strikes ⟨0, 0, -10⟩ ⟨0, 0, 1⟩ 5 = false := by
  have hl2 : 0 < L / 2 := by linarith
  simp only [Primitive.strikes, Primitive.planeIntersectE, Primitive.getUnitVector,
    Primitive.globalFace, prim0, Vector3.dot, Vector3.smul, Vector3.toE,
    Primitive.getLocalCoordsE, Primitive.checkBoundsE, EVector3.sub, EVector3.dot,
    Vector3.add_def, Vector3.sub_def, Vector3.neg_def]
  norm_num [hl2]

theorem prim0_filter (L W D : ℚ) (hL : 0 < L) (hW : 0 < W) (hD : 0 < D) (hD2 : D / 2 < 10) :
    (List.range 6).filter (fun i => (prim0 L W D).strikes ⟨0, 0, -10⟩ ⟨0, 0, 1⟩ i) = [0, 2] := by
  have hr : List.range 6 = [0, 1, 2, 3, 4, 5] := rfl
  rw [hr]
  simp only [List.filter_cons, List.filter_nil,
    prim0_strikes_zero L W D hL hW hD2, prim0_strikes_one L W D hW,
    prim0_strikes_two L W D hL hW hD, prim0_strikes_three L W D hW,
    prim0_strikes_four L W D hL, prim0_strikes_five L W D hL]
  simp

theorem prim0_hitPoint_zero (D L W : ℚ) :
    (prim0 L W D).hitPoint ⟨0, 0, -10⟩ ⟨0, 0, 1⟩ 0 = Vector3.toE ⟨0, 0, -(D / 2)⟩ := by
  simp only [Primitive.hitPoint, Primitive.planeIntersectE, Primitive.getUnitVector,
    Primitive.globalFace, prim0, Vector3.dot, Vector3.smul, Vector3.toE,
    Vector3.add_def, Vector3.sub_def, Vector3.neg_def]
  norm_num

theorem prim0_hitPoint_two (D L W : ℚ) :
    (prim0 L W D).hitPoint ⟨0, 0, -10⟩ ⟨0, 0, 1⟩ 2 = Vector3.toE ⟨0, 0, D / 2⟩ := by
  simp only [Primitive.hitPoint, Primitive.planeIntersectE, Primitive.getUnitVector,
    Primitive.globalFace, prim0, Vector3.dot, Vector3.smul, Vector3.toE,
    Vector3.add_def, Vector3.sub_def, Vector3.neg_def]
  norm_num
  ring

/-- C2: for the primitive centered at the origin with identity rotation and
size (L, W, D) with D/2 < 10, the ray from (0,0,-10) along +Z hits exactly
two faces, the front face (identifier 0) and the back face (identifier 2),
and the two intersection points (0,0,-D/2) and (0,0,D/2) are exactly a
distance D apart (squared distance D^2, with D > 0). -/
theorem C2_axis_ray_front_back (L W D : ℚ) (hL : 0 < L) (hW : 0 < W) (hD : 0 < D)
    (hD2 : D / 2 < 10) (s0 : HitState) :
    ((prim0 L W D).intersectPrimitive ⟨0, 0, -10⟩ ⟨0, 0, 1⟩ s0).1 = true ∧
    ((prim0 L W D).intersectPrimitive ⟨0, 0, -10⟩ ⟨0, 0, 1⟩ s0).2.faceCount = 2 ∧
    ((prim0 L W D).intersectPrimitive ⟨0, 0, -10⟩ ⟨0, 0, 1⟩ s0).2.face1 = 0 ∧
    ((prim0 L W D).intersectPrimitive ⟨0, 0, -10⟩ ⟨0, 0, 1⟩ s0).2.face2 = 2 ∧
    ((prim0 L W D).intersectPrimitive ⟨0, 0, -10⟩ ⟨0, 0, 1⟩ s0).2.P1 =
      Vector3.toE ⟨0, 0, -(D / 2)⟩ ∧
    ((prim0 L W D).intersectPrimitive ⟨0, 0, -10⟩ ⟨0, 0, 1⟩ s0).2.P2 =
      Vector3.toE ⟨0, 0, D / 2⟩ ∧
    (EVector3.sub (((prim0 L W D).intersectPrimitive ⟨0, 0, -10⟩ ⟨0, 0, 1⟩ s0).2.P2)
      (((prim0 L W D).intersectPrimitive ⟨0, 0, -10⟩ ⟨0, 0, 1⟩ s0).2.P1)).sqLength =
      .fin (D ^ 2) := by
  have hfil := prim0_filter L W D hL hW hD hD2
  obtain ⟨e1, e2, e3, e4, e5⟩ := foldl_step_from_zero (prim0 L W D) ⟨0, 0, -10⟩ ⟨0, 0, 1⟩
    (List.range 6) { s0 with faceCount := 0 } 0 2 [] rfl hfil
  simp only [Primitive.intersectPrimitive]
  have hc : ((List.range 6).foldl
      ((prim0 L W D).intersectStep ⟨0, 0, -10⟩ ⟨0, 0, 1⟩)
      { s0 with faceCount := 0 }).faceCount = 2 := by
    rw [foldl_step_faceCount, hfil]
    simp
  have hp0 := prim0_hitPoint_zero D L W
  have hp2 := prim0_hitPoint_two D L W
  rw [hp0] at e1
  rw [hp2] at e3
  refine ⟨by rw [hc]; rfl, hc, e2, e4, e1, e3, ?_⟩
  rw [e1, e3]
  simp only [Vector3.toE, EVector3.sub, EVector3.sqLength, EVector3.dot, ERat.sub_fin_fin,
    ERat.mul_fin_fin, ERat.add_fin_fin]
  norm_num
  ring

/-- C2 witness: the unit-size instance L = W = D = 1. -/
theorem C2_witness :
    ((prim0 1 1 1).intersectPrimitive ⟨0, 0, -10⟩ ⟨0, 0, 1⟩ hitState0).1 = true ∧
    ((prim0 1 1 1).intersectPrimitive ⟨0, 0, -10⟩ ⟨0, 0, 1⟩ hitState0).2.faceCount = 2 ∧
    ((prim0 1 1 1).intersectPrimitive ⟨0, 0, -10⟩ ⟨0, 0, 1⟩ hitState0).2.face1 = 0 ∧
    ((prim0 1 1 1).intersectPrimitive ⟨0, 0, -10⟩ ⟨0, 0, 1⟩ hitState0).2.face2 = 2 ∧
    ((prim0 1 1 1).intersectPrimitive ⟨0, 0, -10⟩ ⟨0, 0, 1⟩ hitState0).2.P1 =
      Vector3.toE ⟨0, 0, -(1 / 2)⟩ ∧
    ((prim0 1 1 1).intersectPrimitive ⟨0, 0, -10⟩ ⟨0, 0, 1⟩ hitState0).2.P2 =
      Vector3.toE ⟨0, 0, 1 / 2⟩ ∧
    (EVector3.sub (((prim0 1 1 1).intersectPrimitive ⟨0, 0, -10⟩ ⟨0, 0, 1⟩ hitState0).2.P2)
      (((prim0 1 1 1).intersectPrimitive ⟨0, 0, -10⟩ ⟨0, 0, 1⟩ hitState0).2.P1)).sqLength =
      .fin (1 ^ 2) :=
  C2_axis_ray_front_back 1 1 1 (by norm_num) (by norm_num) (by norm_num) (by norm_num) hitState0

/-- C3 witness: for the unit primitive and the +Z ray from (0,0,-10), the
two bounds-passing faces are 0 and 2 and the returned local coordinates are
those of the nearer intersection point. -/
theorem C3_witness :
    ((prim0 1 1 1).intersectPrimitive ⟨0, 0, -10⟩ ⟨0, 0, 1⟩ hitState0).2.P1 =
      (prim0 1 1 1).hitPoint ⟨0, 0, -10⟩ ⟨0, 0, 1⟩ 0 ∧
    ((prim0 1 1 1).intersectPrimitive ⟨0, 0, -10⟩ ⟨0, 0, 1⟩ hitState0).2.P2 =
      (prim0 1 1 1).hitPoint ⟨0, 0, -10⟩ ⟨0, 0, 1⟩ 2 ∧
    ∃ c, (c = 0 ∨ c = 2) ∧
      ERat.leB ((prim0 1 1 1).hitPoint ⟨0, 0, -10⟩ ⟨0, 0, 1⟩ c).sqLength
        ((prim0 1 1 1).hitPoint ⟨0, 0, -10⟩ ⟨0, 0, 1⟩ 0).sqLength = true ∧
      ERat.leB ((prim0 1 1 1).hitPoint ⟨0, 0, -10⟩ ⟨0, 0, 1⟩ c).sqLength
        ((prim0 1 1 1).hitPoint ⟨0, 0, -10⟩ ⟨0, 0, 1⟩ 2).sqLength = true ∧
      (((prim0 1 1 1).intersectPrimitive ⟨0, 0, -10⟩ ⟨0, 0, 1⟩ hitState0).2.px,
        ((prim0 1 1 1).intersectPrimitive ⟨0, 0, -10⟩ ⟨0, 0, 1⟩ hitState0).2.py,
        ((prim0 1 1 1).intersectPrimitive ⟨0, 0, -10⟩ ⟨0, 0, 1⟩ hitState0).2.pz) =
        (prim0 1 1 1).localOf ⟨0, 0, -10⟩ ⟨0, 0, 1⟩ c :=
  C3_nearer_hit_local_coords (prim0 1 1 1) ⟨0, 0, -10⟩ ⟨0, 0, 1⟩ hitState0 0 2
    (prim0_filter 1 1 1 (by norm_num) (by norm_num) (by norm_num) (by norm_num))

theorem sgn_half_bounds (s : Bool) (w : ℚ) (h : 0 ≤ w) :
    -w / 2 ≤ sgn s * (w / 2) ∧ sgn s * (w / 2) ≤ w / 2 := by
  cases s <;> constructor <;> simp [sgn] <;> linarith

/-- C7: the bounds test is inclusive at exact boundaries: for every face, a
local point whose in-plane coordinates each equal a (positive or negative)
half-extent exactly — an edge or corner point — passes `CheckBounds`, since
the source uses `>=`/`<=` comparisons. -/
theorem C7_inclusive_bounds (p : Primitive) (hW : 0 ≤ p.width) (hL : 0 ≤ p.length)
    (hD : 0 ≤ p.depth) (face : ℕ) (hf : face < 6) (sx sy sz : Bool) :
    p.checkBounds face (sgn sx * (p.width / 2)) (sgn sy * (p.length / 2))
      (sgn sz * (p.depth / 2)) = true := by
  obtain ⟨bx1, bx2⟩ := sgn_half_bounds sx p.width hW
  obtain ⟨by1, by2⟩ := sgn_half_bounds sy p.length hL
  obtain ⟨bz1, bz2⟩ := sgn_half_bounds sz p.depth hD
  unfold Primitive.checkBounds
  interval_cases face <;> norm_num <;>
    refine ⟨⟨?_, ?_⟩, ?_, ?_⟩ <;> linarith

/-- C7 witness: the corner (+width/2, +length/2, +depth/2) of the unit
primitive passes the bounds test of face 0. -/
theorem C7_witness :
    (prim0 1 1 1).checkBounds 0 (sgn true * ((prim0 1 1 1).width / 2))
      (sgn true * ((prim0 1 1 1).length / 2)) (sgn true * ((prim0 1 1 1).depth / 2)) = true :=
  C7_inclusive_bounds (prim0 1 1 1) (by norm_num [prim0]) (by norm_num [prim0])
    (by norm_num [prim0]) 0 (by norm_num) true true true

theorem trapTerms_length (sinQ : ℚ → ℚ) :
    ∀ th ds : List ℚ, th.length = ds.length →
      (trapTerms sinQ th ds).length = th.length - 1 := by
  intro th
  induction th with
  | nil => intro ds _; simp [trapTerms]
  | cons t1 tt ih =>
    intro ds h
    match ds with
    | [] => simp at h
    | d1 :: dd =>
      match tt, dd with
      | [], _ => simp [trapTerms]
      | _ :: _, [] => simp at h
      | t2 :: ts, d2 :: ds2 =>
        simp only [trapTerms, List.length_cons]
        rw [ih (d2 :: ds2) (by simpa using h)]
        simp

theorem trapTerms_getD (sinQ : ℚ → ℚ) :
    ∀ (th ds : List ℚ) (i : ℕ), i + 1 < th.length → th.length = ds.length →
      (trapTerms sinQ th ds).getD i 0 =
        1/2 * (th.getD (i+1) 0 - th.getD i 0) *
          (ds.getD (i+1) 0 * sinQ (th.getD (i+1) 0) + ds.getD i 0 * sinQ (th.getD i 0)) *
          2 * piC := by
  intro th
  induction th with
  | nil => intro ds i hi _; simp at hi
  | cons t1 tt ih =>
    intro ds i hi h
    match ds with
    | [] => simp at h
    | d1 :: dd =>
      match tt, dd with
      | [], _ => simp at hi
      | _ :: _, [] => simp at h
      | t2 :: ts, d2 :: ds2 =>
        match i with
        | 0 => simp [trapTerms]
        | k + 1 =>
          simp only [trapTerms, List.getD_cons_succ]
          exact ih (d2 :: ds2) k (by simpa using hi) (by simpa using h)

theorem sum_getD_cons (t : ℚ) (ts : List ℚ) (m : ℕ) :
    ∑ x ∈ Finset.range (m+1), (t :: ts).getD x 0 = t + ∑ x ∈ Finset.range m, ts.getD x 0 := by
  rw [Finset.sum_range_succ']
  simp [List.getD_cons_succ, List.getD_cons_zero, add_comm]

theorem accumXs_fst (l : List ℚ) :
    ∀ acc, (accumXs acc l).1 = acc + ∑ i ∈ Finset.range l.length, l.getD i 0 := by
  induction l with
  | nil => intro acc; simp [accumXs]
  | cons t ts ih =>
    intro acc
    simp only [accumXs, List.length_cons]
    rw [ih (acc + t), sum_getD_cons]
    ring

theorem accumXs_snd_length (l : List ℚ) : ∀ acc, (accumXs acc l).2.length = l.length := by
  induction l with
  | nil => intro acc; simp [accumXs]
  | cons t ts ih => intro acc; simp [accumXs, ih]

theorem accumXs_snd_getD (l : List ℚ) :
    ∀ acc j, j < l.length →
      (accumXs acc l).2.getD j 0 = acc + ∑ i ∈ Finset.range (j+1), l.getD i 0 := by
  induction l with
  | nil => intro acc j hj; simp at hj
  | cons t ts ih =>
    intro acc j hj
    match j with
    | 0 => simp [accumXs]
    | k + 1 =>
      simp only [accumXs, List.getD_cons_succ]
      rw [ih (acc + t) k (by simpa using hj), sum_getD_cons]
      ring

theorem initCore_integral (sinQ : ℚ → ℚ) (th ds : List ℚ) (n : ℕ) (hth : th.length = n)
    (hds : ds.length = n) (hn : 2 ≤ n) :
    (∀ j, j < n →
      (0 :: (accumXs 0 (trapTerms sinQ th ds)).2).getD j 0 = trapSumUpTo sinQ th ds j) ∧
    (accumXs 0 (trapTerms sinQ th ds)).1 = trapSumUpTo sinQ th ds (n-1) := by
  have hlen : (trapTerms sinQ th ds).length = n - 1 := by
    rw [trapTerms_length sinQ th ds (hth.trans hds.symm), hth]
  have hterm : ∀ i, i < n - 1 → (trapTerms sinQ th ds).getD i 0 =
      1/2 * (th.getD (i+1) 0 - th.getD i 0) *
        (ds.getD (i+1) 0 * sinQ (th.getD (i+1) 0) + ds.getD i 0 * sinQ (th.getD i 0)) *
        2 * piC := by
    intro i hi
    exact trapTerms_getD sinQ th ds i (by omega) (hth.trans hds.symm)
  constructor
  · intro j hj
    match j with
    | 0 => simp [trapSumUpTo]
    | k + 1 =>
      simp only [List.getD_cons_succ]
      rw [accumXs_snd_getD _ 0 k (by omega)]
      rw [trapSumUpTo]
      rw [Finset.sum_congr rfl (fun i hi => hterm i (by
        have := Finset.mem_range.mp hi
        omega))]
      simp
  · rw [accumXs_fst, hlen]
    rw [trapSumUpTo]
    rw [Finset.sum_congr rfl (fun i hi => hterm i (Finset.mem_range.mp hi))]
    simp

/-- C8: every successful tabulated `Initialize` (array-based or file-based,
`n ≥ 2` points, fresh object) converts each input angle from degrees to
radians, and computes the total reaction cross-section as the 2*pi-scaled
trapezoidal integral of dsigma/domega * sin(theta); the cumulative array
satisfies integral[0] = 0, integral[j] = the partial trapezoid sum through
bin j-1, and integral[n-1] = the total reaction cross-section. -/
theorem C8_trapezoid_integral (sinQ : ℚ → ℚ) (a : AngularDist) (n : ℕ)
    (angle xsection : List ℚ) (pairs : List (ℚ × ℚ)) (bi bi2 : ℚ) (targ targ2 : Option ℚ)
    (hi : a.init = false) (hnp : a.num_points = 0) (hn : 2 ≤ n)
    (hla : angle.length = n) (hlx : xsection.length = n) (hp : 2 ≤ pairs.length) :
    ((a.initFromArrays sinQ n angle xsection bi targ).1 = true ∧
     (a.initFromArrays sinQ n angle xsection bi targ).2.com_theta =
       angle.map (fun q => q * deg2rad) ∧
     (a.initFromArrays sinQ n angle xsection bi targ).2.dsigma_domega = xsection ∧
     (∀ j, j < n → (a.initFromArrays sinQ n angle xsection bi targ).2.integral.getD j 0 =
       trapSumUpTo sinQ ((a.initFromArrays sinQ n angle xsection bi targ).2.com_theta)
         ((a.initFromArrays sinQ n angle xsection bi targ).2.dsigma_domega) j) ∧
     (a.initFromArrays sinQ n angle xsection bi targ).2.integral.getD 0 0 = 0 ∧
     (a.initFromArrays sinQ n angle xsection bi targ).2.reaction_xsection =
       trapSumUpTo sinQ ((a.initFromArrays sinQ n angle xsection bi targ).2.com_theta)
         ((a.initFromArrays sinQ n angle xsection bi targ).2.dsigma_domega) (n-1) ∧
     (a.initFromArrays sinQ n angle xsection bi targ).2.integral.getD (n-1) 0 =
       (a.initFromArrays sinQ n angle xsection bi targ).2.reaction_xsection) ∧
    ((a.initFromFile sinQ (some pairs) bi2 targ2).1 = true ∧
     (a.initFromFile sinQ (some pairs) bi2 targ2).2.com_theta =
       pairs.map (fun pr => pr.1 * deg2rad) ∧
     (a.initFromFile sinQ (some pairs) bi2 targ2).2.dsigma_domega =
       pairs.map (fun pr => pr.2) ∧
     (∀ j, j < pairs.length →
       (a.initFromFile sinQ (some pairs) bi2 targ2).2.integral.getD j 0 =
         trapSumUpTo sinQ ((a.initFromFile sinQ (some pairs) bi2 targ2).2.com_theta)
           ((a.initFromFile sinQ (some pairs) bi2 targ2).2.dsigma_domega) j) ∧
     (a.initFromFile sinQ (some pairs) bi2 targ2).2.integral.getD 0 0 = 0 ∧
     (a.initFromFile sinQ (some pairs) bi2 targ2).2.reaction_xsection =
       trapSumUpTo sinQ ((a.initFromFile sinQ (some pairs) bi2 targ2).2.com_theta)
         ((a.initFromFile sinQ (some pairs) bi2 targ2).2.dsigma_domega) (pairs.length - 1) ∧
     (a.initFromFile sinQ (some pairs) bi2 targ2).2.integral.getD (pairs.length - 1) 0 =
       (a.initFromFile sinQ (some pairs) bi2 targ2).2.reaction_xsection) := by
  constructor
  · have hcond : ¬(a.init = true ∨ n ≤ 1) := by
      rw [hi]
      simp
      omega
    have htake : angle.take n = angle := by rw [← hla]; exact List.take_length angle
    have hxt : xsection.take n = xsection := by rw [← hlx]; exact List.take_length xsection
    have h1 : (a.initFromArrays sinQ n angle xsection bi targ).1 = true := by
      simp only [AngularDist.initFromArrays, if_neg hcond]
    have hcom : (a.initFromArrays sinQ n angle xsection bi targ).2.com_theta =
        angle.map (fun q => q * deg2rad) := by
      simp only [AngularDist.initFromArrays, if_neg hcond, htake]
    have hds : (a.initFromArrays sinQ n angle xsection bi targ).2.dsigma_domega = xsection := by
      simp only [AngularDist.initFromArrays, if_neg hcond, hxt]
    have hint : (a.initFromArrays sinQ n angle xsection bi targ).2.integral =
        0 :: (accumXs 0 (trapTerms sinQ (angle.map (fun q => q * deg2rad)) xsection)).2 := by
      simp only [AngularDist.initFromArrays, if_neg hcond, htake, hxt]
    have hrx : (a.initFromArrays sinQ n angle xsection bi targ).2.reaction_xsection =
        (accumXs 0 (trapTerms sinQ (angle.map (fun q => q * deg2rad)) xsection)).1 := by
      simp only [AngularDist.initFromArrays, if_neg hcond, htake, hxt]
    have hthlen : (angle.map (fun q => q * deg2rad)).length = n := by
      rw [List.length_map, hla]
    obtain ⟨hInt, hFst⟩ :=
      initCore_integral sinQ (angle.map (fun q => q * deg2rad)) xsection n hthlen hlx hn
    refine ⟨h1, hcom, hds, ?_, ?_, ?_, ?_⟩
    · intro j hj
      rw [hint, hcom, hds]
      exact hInt j hj
    · rw [hint]
      simp
    · rw [hrx, hcom, hds]
      exact hFst
    · rw [hint, hrx]
      exact (hInt (n-1) (by omega)).trans hFst.symm
  · have hcond2 : 1 < a.num_points + pairs.length := by rw [hnp]; omega
    have h1 : (a.initFromFile sinQ (some pairs) bi2 targ2).1 = true := by
      simp only [AngularDist.initFromFile, hi, Bool.false_eq_true, if_false, if_pos hcond2]
    have hcom : (a.initFromFile sinQ (some pairs) bi2 targ2).2.com_theta =
        pairs.map (fun pr => pr.1 * deg2rad) := by
      simp only [AngularDist.initFromFile, hi, Bool.false_eq_true, if_false, if_pos hcond2]
    have hds : (a.initFromFile sinQ (some pairs) bi2 targ2).2.dsigma_domega =
        pairs.map (fun pr => pr.2) := by
      simp only [AngularDist.initFromFile, hi, Bool.false_eq_true, if_false, if_pos hcond2]
    have hint : (a.initFromFile sinQ (some pairs) bi2 targ2).2.integral =
        0 :: (accumXs 0 (trapTerms sinQ (pairs.map (fun pr => pr.1 * deg2rad))
          (pairs.map (fun pr => pr.2)))).2 := by
      simp only [AngularDist.initFromFile, hi, Bool.false_eq_true, if_false, if_pos hcond2]
    have hrx : (a.initFromFile sinQ (some pairs) bi2 targ2).2.reaction_xsection =
        (accumXs 0 (trapTerms sinQ (pairs.map (fun pr => pr.1 * deg2rad))
          (pairs.map (fun pr => pr.2)))).1 := by
      simp only [AngularDist.initFromFile, hi, Bool.false_eq_true, if_false, if_pos hcond2]
    have hthlen : (pairs.map (fun pr => pr.1 * deg2rad)).length = pairs.length := by
      rw [List.length_map]
    have hdslen : (pairs.map (fun pr => pr.2)).length = pairs.length := by
      rw [List.length_map]
    obtain ⟨hInt, hFst⟩ := initCore_integral sinQ (pairs.map (fun pr => pr.1 * deg2rad))
      (pairs.map (fun pr => pr.2)) pairs.length hthlen hdslen hp
    refine ⟨h1, hcom, hds, ?_, ?_, ?_, ?_⟩
    · intro j hj
      rw [hint, hcom, hds]
      exact hInt j hj
    · rw [hint]
      simp
    · rw [hrx, hcom, hds]
      exact hFst
    · rw [hint, hrx]
      exact (hInt (pairs.length - 1) (by omega)).trans hFst.symm

/-- C8 witness: fresh object, two tabulated points (0, 1) and (90, 1), via
both the array overload and the file overload. -/
theorem C8_witness :
    (AngularDist.fresh.initFromArrays sOne 2 [0, 90] [1, 1] 0 none).1 = true ∧
    (AngularDist.fresh.initFromArrays sOne 2 [0, 90] [1, 1] 0 none).2.integral.getD 0 0 = 0 ∧
    (AngularDist.fresh.initFromArrays sOne 2 [0, 90] [1, 1] 0 none).2.integral.getD 1 0 =
      trapSumUpTo sOne
        ((AngularDist.fresh.initFromArrays sOne 2 [0, 90] [1, 1] 0 none).2.com_theta)
        ((AngularDist.fresh.initFromArrays sOne 2 [0, 90] [1, 1] 0 none).2.dsigma_domega) 1 ∧
    (AngularDist.fresh.initFromArrays sOne 2 [0, 90] [1, 1] 0 none).2.reaction_xsection =
      trapSumUpTo sOne
        ((AngularDist.fresh.initFromArrays sOne 2 [0, 90] [1, 1] 0 none).2.com_theta)
        ((AngularDist.fresh.initFromArrays sOne 2 [0, 90] [1, 1] 0 none).2.dsigma_domega) 1 ∧
    (AngularDist.fresh.initFromFile sOne (some [(0, 1), (90, 1)]) 0 none).1 = true ∧
    (AngularDist.fresh.initFromFile sOne (some [(0, 1), (90, 1)]) 0 none).2.integral.getD 1 0 =
      (AngularDist.fresh.initFromFile sOne (some [(0, 1), (90, 1)]) 0 none).2.reaction_xsection := by
  have h := C8_trapezoid_integral sOne AngularDist.fresh 2 [0, 90] [1, 1]
    [(0, 1), (90, 1)] 0 0 none none rfl rfl (by norm_num) rfl rfl (by norm_num)
  exact ⟨h.1.1, h.1.2.2.2.2.1, h.1.2.2.2.1 1 (by norm_num), h.1.2.2.2.2.2.1,
    h.2.1, h.2.2.2.2.2.2.2⟩

/-- C10 counterexample: the two tabulated overloads do not produce the same
rate on the same data: the file overload multiplies by the extra factor
1E-27 (vandmc_core.cpp:287) that the array overload omits
(vandmc_core.cpp:332). -/
theorem C10_rate_mismatch :
    (AngularDist.fresh.initFromFile sOne (some [(0, 1), (90, 1)]) 1 (some 1)).2.rate ≠
    (AngularDist.fresh.initFromArrays sOne 2 [0, 90] [1, 1] 1 (some 1)).2.rate := by
  simp only [AngularDist.initFromFile, AngularDist.initFromArrays, trapTerms, accumXs,
    sOne, deg2rad, piC, AngularDist.fresh]
  norm_num

/-- C10 amended: for the same fresh object and the same tabulated data
(n ≥ 2 points), the file overload and the array overload produce identical
com_theta, dsigma_domega and integral arrays, the same reaction_xsection,
num_points, init and success flag — but the rates differ: the file-based
rate carries an extra factor of 1E-27. -/
theorem C10_overloads_agree_amended (sinQ : ℚ → ℚ) (a : AngularDist)
    (pairs : List (ℚ × ℚ)) (bi : ℚ) (targ : Option ℚ)
    (hi : a.init = false) (hnp : a.num_points = 0) (hp : 2 ≤ pairs.length) :
    (a.initFromFile sinQ (some pairs) bi targ).1 =
      (a.initFromArrays sinQ pairs.length (pairs.map (fun pr => pr.1))
        (pairs.map (fun pr => pr.2)) bi targ).1 ∧
    (a.initFromFile sinQ (some pairs) bi targ).2.com_theta =
      (a.initFromArrays sinQ pairs.length (pairs.map (fun pr => pr.1))
        (pairs.map (fun pr => pr.2)) bi targ).2.com_theta ∧
    (a.initFromFile sinQ (some pairs) bi targ).2.dsigma_domega =
      (a.initFromArrays sinQ pairs.length (pairs.map (fun pr => pr.1))
        (pairs.map (fun pr => pr.2)) bi targ).2.dsigma_domega ∧
    (a.initFromFile sinQ (some pairs) bi targ).2.integral =
      (a.initFromArrays sinQ pairs.length (pairs.map (fun pr => pr.1))
        (pairs.map (fun pr => pr.2)) bi targ).2.integral ∧
    (a.initFromFile sinQ (some pairs) bi targ).2.reaction_xsection =
      (a.initFromArrays sinQ pairs.length (pairs.map (fun pr => pr.1))
        (pairs.map (fun pr => pr.2)) bi targ).2.reaction_xsection ∧
    (a.initFromFile sinQ (some pairs) bi targ).2.num_points =
      (a.initFromArrays sinQ pairs.length (pairs.map (fun pr => pr.1))
        (pairs.map (fun pr => pr.2)) bi targ).2.num_points ∧
    (a.initFromFile sinQ (some pairs) bi targ).2.init =
      (a.initFromArrays sinQ pairs.length (pairs.map (fun pr => pr.1))
        (pairs.map (fun pr => pr.2)) bi targ).2.init ∧
    (a.initFromFile sinQ (some pairs) bi targ).2.rate =
      1 / 10 ^ 27 * (a.initFromArrays sinQ pairs.length (pairs.map (fun pr => pr.1))
        (pairs.map (fun pr => pr.2)) bi targ).2.rate := by
  have hcond : ¬(a.init = true ∨ pairs.length ≤ 1) := by
    rw [hi]
    simp
    omega
  have hcond2 : 1 < a.num_points + pairs.length := by rw [hnp]; omega
  have htake : (pairs.map (fun pr => pr.1)).take pairs.length = pairs.map (fun pr => pr.1) := by
    rw [← List.length_map pairs (fun pr => pr.1)]
    exact List.take_length _
  have htake2 : (pairs.map (fun pr => pr.2)).take pairs.length = pairs.map (fun pr => pr.2) := by
    rw [← List.length_map pairs (fun pr => pr.2)]
    exact List.take_length _
  have hmap : (pairs.map (fun pr => pr.1)).map (fun q => q * deg2rad) =
      pairs.map (fun pr => pr.1 * deg2rad) := by
    rw [List.map_map]
    rfl
  have hgc : (a.initFromArrays sinQ pairs.length (pairs.map (fun pr => pr.1))
      (pairs.map (fun pr => pr.2)) bi targ).2.com_theta =
      pairs.map (fun pr => pr.1 * deg2rad) := by
    simp only [AngularDist.initFromArrays, if_neg hcond, htake, hmap]
  have hfc : (a.initFromFile sinQ (some pairs) bi targ).2.com_theta =
      pairs.map (fun pr => pr.1 * deg2rad) := by
    simp only [AngularDist.initFromFile, hi, Bool.false_eq_true, if_false, if_pos hcond2]
  have hgd : (a.initFromArrays sinQ pairs.length (pairs.map (fun pr => pr.1))
      (pairs.map (fun pr => pr.2)) bi targ).2.dsigma_domega =
      pairs.map (fun pr => pr.2) := by
    simp only [AngularDist.initFromArrays, if_neg hcond, htake2]
  have hfd : (a.initFromFile sinQ (some pairs) bi targ).2.dsigma_domega =
      pairs.map (fun pr => pr.2) := by
    simp only [AngularDist.initFromFile, hi, Bool.false_eq_true, if_false, if_pos hcond2]
  have hgi : (a.initFromArrays sinQ pairs.length (pairs.map (fun pr => pr.1))
      (pairs.map (fun pr => pr.2)) bi targ).2.integral =
      0 :: (accumXs 0 (trapTerms sinQ (pairs.map (fun pr => pr.1 * deg2rad))
        (pairs.map (fun pr => pr.2)))).2 := by
    simp only [AngularDist.initFromArrays, if_neg hcond, htake, htake2, hmap]
  have hfi : (a.initFromFile sinQ (some pairs) bi targ).2.integral =
      0 :: (accumXs 0 (trapTerms sinQ (pairs.map (fun pr => pr.1 * deg2rad))
        (pairs.map (fun pr => pr.2)))).2 := by
    simp only [AngularDist.initFromFile, hi, Bool.false_eq_true, if_false, if_pos hcond2]
  have hgr : (a.initFromArrays sinQ pairs.length (pairs.map (fun pr => pr.1))
      (pairs.map (fun pr => pr.2)) bi targ).2.reaction_xsection =
      (accumXs 0 (trapTerms sinQ (pairs.map (fun pr => pr.1 * deg2rad))
        (pairs.map (fun pr => pr.2)))).1 := by
    simp only [AngularDist.initFromArrays, if_neg hcond, htake, htake2, hmap]
  have hfr : (a.initFromFile sinQ (some pairs) bi targ).2.reaction_xsection =
      (accumXs 0 (trapTerms sinQ (pairs.map (fun pr => pr.1 * deg2rad))
        (pairs.map (fun pr => pr.2)))).1 := by
    simp only [AngularDist.initFromFile, hi, Bool.false_eq_true, if_false, if_pos hcond2]
  refine ⟨?_, ?_, ?_, ?_, ?_, ?_, ?_, ?_⟩
  · have hf : (a.initFromFile sinQ (some pairs) bi targ).1 = true := by
      simp only [AngularDist.initFromFile, hi, Bool.false_eq_true, if_false, if_pos hcond2]
    have hg : (a.initFromArrays sinQ pairs.length (pairs.map (fun pr => pr.1))
        (pairs.map (fun pr => pr.2)) bi targ).1 = true := by
      simp only [AngularDist.initFromArrays, if_neg hcond]
    rw [hf, hg]
  · rw [hfc, hgc]
  · rw [hfd, hgd]
  · rw [hfi, hgi]
  · rw [hfr, hgr]
  · have hf : (a.initFromFile sinQ (some pairs) bi targ).2.num_points =
        a.num_points + pairs.length := by
      simp only [AngularDist.initFromFile, hi, Bool.false_eq_true, if_false, if_pos hcond2]
    have hg : (a.initFromArrays sinQ pairs.length (pairs.map (fun pr => pr.1))
        (pairs.map (fun pr => pr.2)) bi targ).2.num_points = pairs.length := by
      simp only [AngularDist.initFromArrays, if_neg hcond]
    rw [hf, hg, hnp]
    omega
  · have hf : (a.initFromFile sinQ (some pairs) bi targ).2.init = true := by
      simp only [AngularDist.initFromFile, hi, Bool.false_eq_true, if_false, if_pos hcond2]
    have hg : (a.initFromArrays sinQ pairs.length (pairs.map (fun pr => pr.1))
        (pairs.map (fun pr => pr.2)) bi targ).2.init = true := by
      simp only [AngularDist.initFromArrays, if_neg hcond]
    rw [hf, hg]
  · cases targ with
    | none =>
      have hf : (a.initFromFile sinQ (some pairs) bi none).2.rate = 0 := by
        simp only [AngularDist.initFromFile, hi, Bool.false_eq_true, if_false, if_pos hcond2]
      have hg : (a.initFromArrays sinQ pairs.length (pairs.map (fun pr => pr.1))
          (pairs.map (fun pr => pr.2)) bi none).2.rate = 0 := by
        simp only [AngularDist.initFromArrays, if_neg hcond]
      rw [hf, hg]
      ring
    | some dens =>
      have hf : (a.initFromFile sinQ (some pairs) bi (some dens)).2.rate =
          (accumXs 0 (trapTerms sinQ (pairs.map (fun pr => pr.1 * deg2rad))
            (pairs.map (fun pr => pr.2)))).1 * (1 / 10 ^ 27) * bi * dens := by
        simp only [AngularDist.initFromFile, hi, Bool.false_eq_true, if_false, if_pos hcond2]
      have hg : (a.initFromArrays sinQ pairs.length (pairs.map (fun pr => pr.1))
          (pairs.map (fun pr => pr.2)) bi (some dens)).2.rate =
          (accumXs 0 (trapTerms sinQ (pairs.map (fun pr => pr.1 * deg2rad))
            (pairs.map (fun pr => pr.2)))).1 * bi * dens := by
        simp only [AngularDist.initFromArrays, if_neg hcond, htake, htake2, hmap]
      rw [hf, hg]
      ring

/-- C10 amended witness: fresh object, data (0, 1), (90, 1), beam intensity
1, target number density 1. -/
theorem C10_witness :
    (AngularDist.fresh.initFromFile sOne (some [(0, 1), (90, 1)]) 1 (some 1)).1 =
      (AngularDist.fresh.initFromArrays sOne 2 [0, 90] [1, 1] 1 (some 1)).1 ∧
    (AngularDist.fresh.initFromFile sOne (some [(0, 1), (90, 1)]) 1 (some 1)).2.com_theta =
      (AngularDist.fresh.initFromArrays sOne 2 [0, 90] [1, 1] 1 (some 1)).2.com_theta ∧
    (AngularDist.fresh.initFromFile sOne (some [(0, 1), (90, 1)]) 1 (some 1)).2.dsigma_domega =
      (AngularDist.fresh.initFromArrays sOne 2 [0, 90] [1, 1] 1 (some 1)).2.dsigma_domega ∧
    (AngularDist.fresh.initFromFile sOne (some [(0, 1), (90, 1)]) 1 (some 1)).2.integral =
      (AngularDist.fresh.initFromArrays sOne 2 [0, 90] [1, 1] 1 (some 1)).2.integral ∧
    (AngularDist.fresh.initFromFile sOne (some [(0, 1), (90, 1)]) 1 (some 1)).2.reaction_xsection =
      (AngularDist.fresh.initFromArrays sOne 2 [0, 90] [1, 1] 1 (some 1)).2.reaction_xsection ∧
    (AngularDist.fresh.initFromFile sOne (some [(0, 1), (90, 1)]) 1 (some 1)).2.num_points =
      (AngularDist.fresh.initFromArrays sOne 2 [0, 90] [1, 1] 1 (some 1)).2.num_points ∧
    (AngularDist.fresh.initFromFile sOne (some [(0, 1), (90, 1)]) 1 (some 1)).2.init =
      (AngularDist.fresh.initFromArrays sOne 2 [0, 90] [1, 1] 1 (some 1)).2.init ∧
    (AngularDist.fresh.initFromFile sOne (some [(0, 1), (90, 1)]) 1 (some 1)).2.rate =
      1 / 10 ^ 27 * (AngularDist.fresh.initFromArrays sOne 2 [0, 90] [1, 1] 1 (some 1)).2.rate :=
  C10_overloads_agree_amended sOne AngularDist.fresh [(0, 1), (90, 1)] 1 (some 1)
    rfl rfl (by norm_num)

end Vandmc
